import Mathlib

/-!
Shallow embedding of the `fetchuy` repository (a small JS fetch utility):
`src/cache.js` (useCache), the retry wrapper `retryFetch`, the HTTP call
wrapper `fetcho` in `src/fetcs.js`, and the `useFetch` React hook's state
machine.  JS values and their truthiness are modelled explicitly because
`cache.js` branches on `if (cache[key])`.
-/

/-- A JavaScript value, as far as the cache needs to distinguish them.
Numbers are modelled as integers (floats/NaN play no role in the claims);
objects are modelled by an opaque identity, since they are stored and
compared by reference and are always truthy. -/
inductive JsValue where
  | undefined
  | null
  | bool (b : Bool)
  | num (n : Int)
  | str (s : String)
  | obj (id : Nat)
deriving DecidableEq, Repr

/-- JS truthiness: `undefined`, `null`, `false`, `0` and `""` are falsy,
everything else (in particular every object) is truthy. -/
def truthy : JsValue → Bool
  | JsValue.undefined => false
  | JsValue.null => false
  | JsValue.bool b => b
  | JsValue.num n => n != 0
  | JsValue.str s => s != ""
  | JsValue.obj _ => true

/-- A JS `Error` as thrown by `fetcho`: we only track its `message`. -/
structure JsError where
  message : String
deriving DecidableEq, Repr

/-! Cache (`src/cache.js`)

```js
const cache = {};
export const useCache = (key, fetchFn) => {
  if (cache[key]) { return Promise.resolve(cache[key]); }
  return fetchFn().then((data) => { cache[key] = data; return data; });
};
```

The module-scope object `cache` is modelled as an association list with at
most one binding per key (property update overwrites in place, as
`cacheSet` does).  Reading an absent property yields `undefined`. -/

abbrev CacheMap := List (String × JsValue)

/-- Reading `cache[key]`: the stored value, or `undefined` if absent. -/
def cacheGet : CacheMap → String → JsValue
  | [], _ => JsValue.undefined
  | (k', v) :: rest, k => if k = k' then v else cacheGet rest k

/-- Assignment `cache[key] = v`: overwrite the existing binding or create a new one. -/
def cacheSet : CacheMap → String → JsValue → CacheMap
  | [], k, v => [(k, v)]
  | (k', v') :: rest, k, v =>
      if k = k' then (k, v) :: rest else (k', v') :: cacheSet rest k v

/-- Whether the object has an own property for `k` (regardless of its
value's truthiness). -/
def hasKey (c : CacheMap) (k : String) : Bool :=
  c.any (fun p => p.1 = k)

/-- One call to `useCache`.  The producer `fetchFn` is a thunk; since it is
called at most once, its behaviour is its outcome: `Except.ok data` for a
promise that resolves with `data`, `Except.error e` for one that rejects
with `e`.  Returns the settled outcome of the returned promise, whether the
producer was invoked, and the cache afterwards.  Note the source tests
`if (cache[key])`, i.e. truthiness, not presence. -/
def useCache {ε : Type} (c : CacheMap) (key : String) (fetchFn : Except ε JsValue) :
    Except ε JsValue × Bool × CacheMap :=
  if truthy (cacheGet c key) then
    (Except.ok (cacheGet c key), false, c)
  else
    match fetchFn with
    | Except.ok data => (Except.ok data, true, cacheSet c key data)
    | Except.error e => (Except.error e, true, c)

/-- Run a sequence of `useCache` calls (key and producer outcome for each),
threading the module-scope cache through. -/
def runCalls {ε : Type} (c : CacheMap) : List (String × Except ε JsValue) → CacheMap
  | [] => c
  | (k, f) :: rest => runCalls (useCache c k f).2.2 rest

/-- The cache object has at most one binding per key. -/
def keysNodup (c : CacheMap) : Prop :=
  (c.map Prod.fst).Nodup

/-! Retry wrapper (`retryFetch`)

```js
export const retryFetch = async (fetchFn, retries = 3, delay = 1000) => {
  let lastError;
  for (let i = 0; i < retries; i++) {
    try { return await fetchFn(); }
    catch (error) {
      lastError = error;
      if (i < retries - 1) {
        await new Promise((resolve) => setTimeout(resolve, delay));
      }
    }
  }
  throw lastError;
};
```

`fetchFn` is modelled by the outcome of its `i`-th invocation (0-based).
`retries` is an `Int`, since JS numbers may be negative and the loop guard
`i < retries` then never fires.  The result records the settled outcome
(`Except.error none` models `throw lastError` with `lastError` still
`undefined`), the number of invocations, and the list of inter-attempt
delay durations in order. -/

/-- The loop of `retryFetch` from iteration `i` with current `lastError`. -/
def retryAux {ε α : Type} (fetchFn : Nat → Except ε α) (retries : Int) (delay : Nat)
    (i : Nat) (lastError : Option ε) : Except (Option ε) α × Nat × List Nat :=
  if _h : (i : Int) < retries then
    match fetchFn i with
    | Except.ok a => (Except.ok a, 1, [])
    | Except.error e =>
        let rest := retryAux fetchFn retries delay (i + 1) (some e)
        (rest.1, rest.2.1 + 1,
          (if (i : Int) < retries - 1 then [delay] else []) ++ rest.2.2)
  else
    (Except.error lastError, 0, [])
termination_by (retries - (i : Int)).toNat
decreasing_by
  simp_wf
  omega

/-- Full call `retryFetch(fetchFn, retries, delay)`: outcome, invocation count,
inter-attempt delays. -/
def retryFetch {ε α : Type} (fetchFn : Nat → Except ε α) (retries : Int) (delay : Nat) :
    Except (Option ε) α × Nat × List Nat :=
  retryAux fetchFn retries delay 0 none

/-! HTTP call wrapper (`src/fetcs.js`)

```js
export const fetcho = async (url, options = {}) => {
  const defaultOptions = {
    method: 'GET',
    headers: { 'Content-Type': 'application/json' },
  };
  const finalOptions = { ...defaultOptions, ...options };
  try {
    const response = await fetch(url, finalOptions);
    if (!response.ok) {
      throw new Error(`HTTP error! Status: ${response.status}`);
    }
    return await response.json();
  } catch (error) {
    console.error('Fetch error:', error);
    throw error;
  }
};
```

The options bag carries optional `method`, `headers` and `body` own
properties; the spread `{ ...defaultOptions, ...options }` overrides a
default top-level key exactly when the caller's bag has that key, replacing
the whole value (in particular the whole headers object).  The platform
`fetch` is a collaborator: a function from the url and merged options to a
transport failure or an `HttpResponse` whose `json()` accessor either
parses or fails. -/

/-- Headers object: an own-property list of header name/value pairs. -/
abbrev Headers := List (String × String)

/-- The caller's options bag; `none` means the key is absent. -/
structure RequestOptions where
  method : Option String
  headers : Option Headers
  body : Option String
deriving DecidableEq, Repr

/-- The options object actually handed to `fetch` after the spread merge. -/
structure FinalOptions where
  method : String
  headers : Headers
  body : Option String
deriving DecidableEq, Repr

/-- The default headers object of `fetcho`. -/
def defaultHeaders : Headers := [("Content-Type", "application/json")]

/-- Spread merge `{ ...defaultOptions, ...options }`: a key present in `options`
replaces the default top-level value wholesale (shallow merge). -/
def mergeOptions (options : RequestOptions) : FinalOptions :=
  ⟨options.method.getD "GET", options.headers.getD defaultHeaders, options.body⟩

/-- A response descriptor: success flag, status code, and the outcome of
`response.json()` were it to be awaited. -/
structure HttpResponse where
  ok : Bool
  status : Nat
  json : Except JsError JsValue
deriving Repr

/-- What the platform `fetch` does for one request: either throws a
transport-level error or yields a response descriptor. -/
inductive TransportResult where
  | fail (e : JsError)
  | success (r : HttpResponse)
deriving Repr

/-- The observable behaviour of one `fetcho` call: the settled outcome, the
options object given to `fetch`, whether `response.json()` was invoked, and
the errors passed to `console.error` (the diagnostic sink), in order. -/
structure FetchoRun where
  outcome : Except JsError JsValue
  requested : FinalOptions
  jsonCalled : Bool
  logged : List JsError
deriving Repr

/-- The message of the error thrown on a non-ok response. -/
def statusMessage (status : Nat) : String :=
  "HTTP error! Status: " ++ toString status

/-- One call `fetcho(url, options)` against a given transport. -/
def fetcho (transport : String → FinalOptions → TransportResult) (url : String)
    (options : RequestOptions) : FetchoRun :=
  let finalOptions := mergeOptions options
  let attempt : Except JsError JsValue × Bool :=
    match transport url finalOptions with
    | TransportResult.fail e => (Except.error e, false)
    | TransportResult.success r =>
        if r.ok then (r.json, true)
        else (Except.error ⟨statusMessage r.status⟩, false)
  ⟨attempt.1, finalOptions, attempt.2,
    match attempt.1 with
    | Except.ok _ => []
    | Except.error e => [e]⟩

/-! Stateful fetch hook (`src/useFetch.js`)

```js
export const useFetch = (url, options = {}) => {
  const [data, setData] = useState(null);
  const [error, setError] = useState(null);
  const [loading, setLoading] = useState(true);
  useEffect(() => {
    const fetchData = async () => {
      try {
        setLoading(true);
        const result = await fetcho(url, options);
        setData(result);
      } catch (err) {
        setError(err.message);
      } finally {
        setLoading(false);
      }
    };
    fetchData();
  }, [url, options]);
  return { data, error, loading };
};
```

The three state fields are modelled directly; one triggered run of the
effect body is a step from the current state and the call's outcome to the
next state.  On success only `data` and `loading` are written (`setError`
is not called); on failure only `error` and `loading` are written. -/

/-- The hook's observable state. -/
structure HookState (V : Type) where
  data : Option V
  error : Option String
  loading : Bool
deriving DecidableEq, Repr

/-- Initial state: `useState(null)`, `useState(null)`, `useState(true)`. -/
def initialHookState {V : Type} : HookState V :=
  ⟨none, none, true⟩

/-- One triggered run of the effect body, given the outcome of
`fetcho(url, options)`: `setLoading(true)`, then on success
`setData(result)`, on failure `setError(err.message)`, finally
`setLoading(false)`. -/
def effectStep {V : Type} (s : HookState V) (outcome : Except JsError V) : HookState V :=
  match outcome with
  | Except.ok v => ⟨some v, s.error, false⟩
  | Except.error e => ⟨s.data, some e.message, false⟩

/-- States the hook can be in: the initial state, or the result of any
sequence of triggered fetches. -/
inductive HookReachable {V : Type} : HookState V → Prop
  | init : HookReachable initialHookState
  | step {s : HookState V} {o : Except JsError V} :
      HookReachable s → HookReachable (effectStep s o)

/-! Helper lemmas about the retry loop -/

/-- Loop guard false: the loop exits and `lastError` is thrown. -/
theorem retryAux_stop {ε α : Type} (fetchFn : Nat → Except ε α) (retries : Int)
    (delay : Nat) (i : Nat) (le : Option ε) (h : ¬ (i : Int) < retries) :
    retryAux fetchFn retries delay i le = (Except.error le, 0, []) := by
  unfold retryAux
  rw [dif_neg h]

/-- Iteration `i` runs and the attempt succeeds: return immediately. -/
theorem retryAux_ok {ε α : Type} {fetchFn : Nat → Except ε α} {retries : Int}
    (delay : Nat) {i : Nat} (le : Option ε) (h : (i : Int) < retries) {a : α}
    (hok : fetchFn i = Except.ok a) :
    retryAux fetchFn retries delay i le = (Except.ok a, 1, []) := by
  unfold retryAux
  rw [dif_pos h, hok]

/-- Iteration `i` runs and the attempt fails: record the error, delay
unless this was the last iteration, and continue. -/
theorem retryAux_error {ε α : Type} {fetchFn : Nat → Except ε α} {retries : Int}
    (delay : Nat) {i : Nat} (le : Option ε) (h : (i : Int) < retries) {e : ε}
    (herr : fetchFn i = Except.error e) :
    retryAux fetchFn retries delay i le =
      ((retryAux fetchFn retries delay (i + 1) (some e)).1,
       (retryAux fetchFn retries delay (i + 1) (some e)).2.1 + 1,
       (if (i : Int) < retries - 1 then [delay] else []) ++
         (retryAux fetchFn retries delay (i + 1) (some e)).2.2) := by
  conv_lhs => rw [retryAux]
  rw [dif_pos h, herr]

/-- If every attempt fails, the loop runs all remaining iterations, keeps
only the last error, and delays after every failed attempt but the last. -/
theorem retryAux_all_fail {ε α : Type} {fetchFn : Nat → Except ε α} {err : Nat → ε}
    (hfail : ∀ i, fetchFn i = Except.error (err i)) (n delay : Nat) :
    ∀ (k i : Nat) (le : Option ε), i + k + 1 = n →
      retryAux fetchFn (n : Int) delay i le =
        (Except.error (some (err (n - 1))), k + 1, List.replicate k delay) := by
  intro k
  induction k with
  | zero =>
    intro i le hik
    have hi : (i : Int) < (n : Int) := by omega
    rw [retryAux_error delay le hi (hfail i), retryAux_stop _ _ _ _ _ (by omega)]
    have hc : ¬ (i : Int) < (n : Int) - 1 := by omega
    have hi' : n - 1 = i := by omega
    simp [hc, hi']
  | succ k ih =>
    intro i le hik
    have hi : (i : Int) < (n : Int) := by omega
    rw [retryAux_error delay le hi (hfail i), ih (i + 1) (some (err i)) (by omega)]
    have hc : (i : Int) < (n : Int) - 1 := by omega
    simp [hc, List.replicate_succ]

/-- If the attempts at iterations `j, j+1, ..., j+d-1` fail and the one at
`j+d` succeeds (with `j+d` a valid iteration), the loop performs `d+1`
attempts from `j` and `d` delays, and resolves with the success value. -/
theorem retryAux_first_success {ε α : Type} {fetchFn : Nat → Except ε α} {err : Nat → ε}
    {v : α} (n delay m : Nat) (hm : m < n)
    (hfail : ∀ i, i < m → fetchFn i = Except.error (err i))
    (hok : fetchFn m = Except.ok v) :
    ∀ (d j : Nat) (le : Option ε), j + d = m →
      retryAux fetchFn (n : Int) delay j le =
        (Except.ok v, d + 1, List.replicate d delay) := by
  intro d
  induction d with
  | zero =>
    intro j le hj
    have hj' : j = m := by omega
    subst hj'
    exact retryAux_ok delay le (by omega) hok
  | succ d ih =>
    intro j le hj
    have hjm : j < m := by omega
    have hi : (j : Int) < (n : Int) := by omega
    rw [retryAux_error delay le hi (hfail j hjm), ih (j + 1) (some (err j)) (by omega)]
    have hc : (j : Int) < (n : Int) - 1 := by omega
    simp [hc, List.replicate_succ]

/-! Claims about the retry wrapper -/

/-- C2: for every `n ≥ 1` and every producer that fails on all attempts,
`retryFetch(producer, n, d)` invokes the producer exactly `n` times and
rejects with exactly the failure of the `n`-th (last) invocation; the
failures of earlier attempts are discarded (and `n - 1` delays occur). -/
theorem retryFetch_all_fail {ε α : Type} (fetchFn : Nat → Except ε α) (err : Nat → ε)
    (n d : Nat) (hn : 1 ≤ n) (hfail : ∀ i, fetchFn i = Except.error (err i)) :
    retryFetch fetchFn (n : Int) d =
      (Except.error (some (err (n - 1))), n, List.replicate (n - 1) d) := by
  unfold retryFetch
  have h := retryAux_all_fail hfail n d (n - 1) 0 none (by omega)
  rwa [show n - 1 + 1 = n by omega] at h

/-- Witness for C2 at `n = 3`, `d = 7`, producer failing with `num i` on
its `i`-th invocation: 3 invocations, the last failure kept, 2 delays. -/
theorem retryFetch_all_fail_witness :
    retryFetch (fun i => (Except.error (JsValue.num i) : Except JsValue JsValue)) (3 : Int) 7 =
      (Except.error (some (JsValue.num 2)), 3, List.replicate 2 7) := by
  have h := retryFetch_all_fail
    (fun i => (Except.error (JsValue.num i) : Except JsValue JsValue))
    (fun i => JsValue.num i) 3 7 (by decide) (fun i => rfl)
  simpa using h

/-- C3: for every `n ≥ 1`, every `k` with `1 ≤ k ≤ n`, and every producer
that fails on attempts `1..k-1` and succeeds on attempt `k`,
`retryFetch(producer, n, d)` invokes the producer exactly `k` times,
resolves with attempt `k`'s success value, and performs exactly `k - 1`
inter-attempt delays of `d` milliseconds (no delay after the successful
attempt; the remaining attempts are skipped). -/
theorem retryFetch_succeeds_at_k {ε α : Type} (fetchFn : Nat → Except ε α) (err : Nat → ε)
    (v : α) (n k d : Nat) (hk1 : 1 ≤ k) (hkn : k ≤ n)
    (hfail : ∀ i, i < k - 1 → fetchFn i = Except.error (err i))
    (hok : fetchFn (k - 1) = Except.ok v) :
    retryFetch fetchFn (n : Int) d = (Except.ok v, k, List.replicate (k - 1) d) := by
  unfold retryFetch
  have h := retryAux_first_success n d (k - 1) (by omega) hfail hok (k - 1) 0 none (by omega)
  rwa [show k - 1 + 1 = k by omega] at h

/-- Witness for C3 at `n = 5`, `k = 3`, `d = 9`: attempts 1 and 2 fail,
attempt 3 succeeds with `str "hi"`: 3 invocations, 2 delays of 9. -/
theorem retryFetch_succeeds_at_k_witness :
    retryFetch
        (fun i => if i < 2 then Except.error (JsValue.num i) else Except.ok (JsValue.str "hi"))
        (5 : Int) 9 =
      (Except.ok (JsValue.str "hi"), 3, List.replicate 2 9) := by
  have h := retryFetch_succeeds_at_k
    (fun i => if i < 2 then Except.error (JsValue.num i) else Except.ok (JsValue.str "hi"))
    (fun i => JsValue.num i) (JsValue.str "hi") 5 3 9 (by decide) (by decide)
    (fun i hi => by interval_cases i <;> rfl) (by rfl)
  simpa using h

/-- C10: for every `retries ≤ 0` and every producer, `retryFetch` never
invokes the producer and rejects immediately with the `undefined` value
(modelled `Except.error none`: the uninitialized `lastError` is thrown),
with no delays. -/
theorem retryFetch_nonpos_rejects_undefined {ε α : Type} (fetchFn : Nat → Except ε α)
    (retries : Int) (d : Nat) (hr : retries ≤ 0) :
    retryFetch fetchFn retries d = (Except.error none, 0, []) := by
  unfold retryFetch
  exact retryAux_stop fetchFn retries d 0 none (by omega)

/-- Witness for C10 at `retries = -2`: producer never invoked, immediate
rejection with `undefined`. -/
theorem retryFetch_nonpos_rejects_undefined_witness :
    retryFetch (fun i => (Except.ok (JsValue.num i) : Except JsValue JsValue)) (-2 : Int) 4 =
      (Except.error none, 0, []) :=
  retryFetch_nonpos_rejects_undefined
    (fun i => (Except.ok (JsValue.num i) : Except JsValue JsValue)) (-2) 4 (by decide)

/-! Helper lemmas about the cache -/

/-- Reading a key with no own property yields `undefined`. -/
theorem cacheGet_of_not_hasKey {c : CacheMap} {k : String} (h : hasKey c k = false) :
    cacheGet c k = JsValue.undefined := by
  induction c with
  | nil => rfl
  | cons p rest ih =>
    obtain ⟨k', v⟩ := p
    simp only [hasKey, List.any_cons, Bool.or_eq_false_iff] at h
    obtain ⟨h1, h2⟩ := h
    have hne : ¬ k = k' := by
      intro hh
      simp [hh] at h1
    simpa [cacheGet, hne] using ih h2

/-- Reading back the key just assigned yields the assigned value. -/
theorem cacheGet_cacheSet_self (c : CacheMap) (k : String) (v : JsValue) :
    cacheGet (cacheSet c k v) k = v := by
  induction c with
  | nil => simp [cacheSet, cacheGet]
  | cons p rest ih =>
    obtain ⟨k', v'⟩ := p
    by_cases hk : k = k'
    · simp [cacheSet, cacheGet, hk]
    · simp [cacheSet, cacheGet, hk, ih]

/-- Assigning one key leaves every other key's value unchanged. -/
theorem cacheGet_cacheSet_ne (c : CacheMap) {k k' : String} (v : JsValue) (h : k ≠ k') :
    cacheGet (cacheSet c k' v) k = cacheGet c k := by
  induction c with
  | nil => simp [cacheSet, cacheGet, h]
  | cons p rest ih =>
    obtain ⟨k'', v''⟩ := p
    by_cases hk : k' = k''
    · subst hk
      simp [cacheSet, cacheGet, h]
    · simp [cacheSet, cacheGet, hk, ih]

/-- A key of the object after an assignment is either an old key or the
assigned key. -/
theorem mem_keys_cacheSet {c : CacheMap} {k x : String} {v : JsValue}
    (h : x ∈ (cacheSet c k v).map Prod.fst) : x ∈ c.map Prod.fst ∨ x = k := by
  induction c with
  | nil =>
    simp [cacheSet] at h
    exact Or.inr h
  | cons p rest ih =>
    obtain ⟨k', v'⟩ := p
    by_cases hk : k = k'
    · simp [cacheSet, hk] at h
      rcases h with h | h
      · exact Or.inr (by rw [h, hk])
      · exact Or.inl (by simp [h])
    · simp [cacheSet, hk] at h
      rcases h with h | h
      · exact Or.inl (by simp [h])
      · rcases ih (by simpa using h) with h' | h'
        · exact Or.inl (by simp [h'])
        · exact Or.inr h'

/-- Property assignment preserves key uniqueness. -/
theorem keysNodup_cacheSet {c : CacheMap} (k : String) (v : JsValue) (h : keysNodup c) :
    keysNodup (cacheSet c k v) := by
  induction c with
  | nil => simp [cacheSet, keysNodup]
  | cons p rest ih =>
    obtain ⟨k', v'⟩ := p
    by_cases hk : k = k'
    · have hkeys : (cacheSet ((k', v') :: rest) k v).map Prod.fst =
          ((k', v') :: rest).map Prod.fst := by
        simp [cacheSet, hk]
      unfold keysNodup
      rw [hkeys]
      exact h
    · simp only [keysNodup, List.map_cons, List.nodup_cons] at h
      obtain ⟨h1, h2⟩ := h
      simp only [cacheSet, if_neg hk, keysNodup, List.map_cons, List.nodup_cons]
      refine ⟨fun hmem => ?_, ih h2⟩
      rcases mem_keys_cacheSet hmem with h' | h'
      · exact h1 h'
      · exact hk h'.symm

/-- One `useCache` call preserves key uniqueness of the cache object. -/
theorem keysNodup_useCache {ε : Type} {c : CacheMap} (k : String) (f : Except ε JsValue)
    (h : keysNodup c) : keysNodup (useCache c k f).2.2 := by
  unfold useCache
  by_cases ht : truthy (cacheGet c k)
  · simpa [ht] using h
  · cases f with
    | ok d => simpa [ht] using keysNodup_cacheSet k d h
    | error e => simpa [ht] using h

/-- Any sequence of `useCache` calls preserves key uniqueness. -/
theorem keysNodup_runCalls {ε : Type} {c : CacheMap}
    (calls : List (String × Except ε JsValue)) (h : keysNodup c) :
    keysNodup (runCalls c calls) := by
  induction calls generalizing c with
  | nil => exact h
  | cons p rest ih =>
    obtain ⟨k, f⟩ := p
    exact ih (keysNodup_useCache k f h)

/-- A key currently holding a truthy value still holds it after any single
`useCache` call (a hit leaves the cache alone; a miss on another key only
assigns that other key; a miss on this key is impossible, the value being
truthy). -/
theorem useCache_preserves_truthy {ε : Type} {c : CacheMap} {k : String} {v : JsValue}
    (hv : truthy v = true) (hget : cacheGet c k = v) (k' : String) (f : Except ε JsValue) :
    cacheGet (useCache c k' f).2.2 k = v := by
  unfold useCache
  by_cases ht : truthy (cacheGet c k')
  · simpa [ht] using hget
  · cases f with
    | ok d =>
      by_cases hk : k = k'
      · subst hk
        rw [hget] at ht
        exact absurd hv ht
      · simpa [ht] using (cacheGet_cacheSet_ne c d hk).trans hget
    | error e => simpa [ht] using hget

/-- A key currently holding a truthy value still holds it after any
sequence of `useCache` calls. -/
theorem runCalls_preserves_truthy {ε : Type} {c : CacheMap} {k : String} {v : JsValue}
    (hv : truthy v = true) (hget : cacheGet c k = v)
    (calls : List (String × Except ε JsValue)) :
    cacheGet (runCalls c calls) k = v := by
  induction calls generalizing c with
  | nil => exact hget
  | cons p rest ih =>
    obtain ⟨k', f⟩ := p
    exact ih (useCache_preserves_truthy hv hget k' f)

/-! Claims about the cache -/

/-- Counterexample to C1 as stated: cache the falsy value `false` under the
fresh key `"k"`; the second call's producer `q` (one that fails) IS
invoked, and the call rejects instead of resolving with the stored value,
because the source tests `if (cache[key])` (truthiness), not presence. -/
theorem useCache_falsy_value_reinvokes :
    (useCache (useCache ([] : CacheMap) "k"
        (Except.ok (JsValue.bool false) : Except JsValue JsValue)).2.2 "k"
        (Except.error (JsValue.str "boom"))).2.1 = true ∧
    (useCache (useCache ([] : CacheMap) "k"
        (Except.ok (JsValue.bool false) : Except JsValue JsValue)).2.2 "k"
        (Except.error (JsValue.str "boom"))).1 = Except.error (JsValue.str "boom") := by
  constructor <;> rfl

/-- C1 (amended): for every key `k` with no existing cache entry and every
producer `p` resolving a TRUTHY value `v`, `useCache(k, p)` invokes `p`
exactly once and stores `v` under `k`; a second call `useCache(k, q)` with
any producer `q` (including a failing one) resolves with `v` without
invoking `q` and leaves the cache unchanged.  (For a falsy resolved value
— `false`, `0`, `""`, `null`, `undefined` — the second call re-invokes its
producer, since the source tests truthiness rather than presence.) -/
theorem useCache_fresh_then_hit {ε : Type} (c : CacheMap) (k : String) (v : JsValue)
    (q : Except ε JsValue) (hk : hasKey c k = false) (hv : truthy v = true) :
    useCache c k (Except.ok v : Except ε JsValue) = (Except.ok v, true, cacheSet c k v) ∧
    cacheGet (cacheSet c k v) k = v ∧
    useCache (useCache c k (Except.ok v : Except ε JsValue)).2.2 k q =
      (Except.ok v, false, cacheSet c k v) := by
  have hget := cacheGet_of_not_hasKey hk
  have ht : truthy (cacheGet c k) = false := by rw [hget]; rfl
  have hfirst : useCache c k (Except.ok v : Except ε JsValue) =
      (Except.ok v, true, cacheSet c k v) := by
    unfold useCache
    simp [ht]
  refine ⟨hfirst, cacheGet_cacheSet_self c k v, ?_⟩
  rw [hfirst]
  unfold useCache
  simp [cacheGet_cacheSet_self c k v, hv]

/-- Witness for C1 (amended): fresh key `"u"`, producer resolving the
truthy object `obj 1`; the second call, with a producer that would fail,
resolves with `obj 1` without invoking it. -/
theorem useCache_fresh_then_hit_witness :
    useCache ([] : CacheMap) "u" (Except.ok (JsValue.obj 1) : Except JsValue JsValue) =
      (Except.ok (JsValue.obj 1), true, cacheSet [] "u" (JsValue.obj 1)) ∧
    cacheGet (cacheSet [] "u" (JsValue.obj 1)) "u" = JsValue.obj 1 ∧
    useCache (useCache ([] : CacheMap) "u"
        (Except.ok (JsValue.obj 1) : Except JsValue JsValue)).2.2 "u"
        (Except.error (JsValue.str "boom")) =
      (Except.ok (JsValue.obj 1), false, cacheSet [] "u" (JsValue.obj 1)) :=
  useCache_fresh_then_hit [] "u" (JsValue.obj 1) (Except.error (JsValue.str "boom"))
    (by rfl) (by rfl)

/-- C6: for every key `k` with no existing entry and every producer that
fails with `e`, `useCache(k, p)` propagates the failure `e` unchanged,
invokes the producer, and leaves the cache map unchanged; hence a
subsequent `useCache(k, p')` invokes `p'` again. -/
theorem useCache_error_propagates {ε : Type} (c : CacheMap) (k : String) (e : ε)
    (hk : hasKey c k = false) (p' : Except ε JsValue) :
    useCache c k (Except.error e) = (Except.error e, true, c) ∧
    (useCache c k p').2.1 = true := by
  have hget := cacheGet_of_not_hasKey hk
  have ht : truthy (cacheGet c k) = false := by rw [hget]; rfl
  constructor
  · unfold useCache
    simp [ht]
  · unfold useCache
    cases p' <;> simp [ht]

/-- Witness for C6: fresh key `"w"`, failing producer; the failure is
propagated unchanged, the cache stays empty, and a second producer is
invoked again. -/
theorem useCache_error_propagates_witness :
    useCache ([] : CacheMap) "w" (Except.error (JsValue.str "down")) =
      (Except.error (JsValue.str "down"), true, ([] : CacheMap)) ∧
    (useCache ([] : CacheMap) "w"
        (Except.ok (JsValue.obj 2) : Except JsValue JsValue)).2.1 = true :=
  useCache_error_propagates [] "w" (JsValue.str "down") (by rfl)
    (Except.ok (JsValue.obj 2))

/-- Counterexample to C7 as stated: the falsy value `false`, written under
`"k"` by a first successful fetch, is OVERWRITTEN by a later call whose
producer resolves `num 7` — the entry's stored value changes, because a
falsy entry does not count as a hit. -/
theorem useCache_overwrites_falsy_entry :
    cacheGet (useCache ([] : CacheMap) "k"
        (Except.ok (JsValue.bool false) : Except JsValue JsValue)).2.2 "k" =
      JsValue.bool false ∧
    cacheGet (useCache (useCache ([] : CacheMap) "k"
        (Except.ok (JsValue.bool false) : Except JsValue JsValue)).2.2 "k"
        (Except.ok (JsValue.num 7) : Except JsValue JsValue)).2.2 "k" = JsValue.num 7 := by
  constructor <;> rfl

/-- C7 (amended): across every sequence of `useCache` calls the cache map
has at most one entry per key, and an entry holding a TRUTHY value, once
written, is never overwritten or removed (its stored value never changes).
(An entry holding a falsy value can be overwritten by a later call for the
same key, since a falsy entry does not count as a hit.) -/
theorem cache_invariant {ε : Type} (calls : List (String × Except ε JsValue))
    (c : CacheMap) (k : String) (v : JsValue)
    (hv : truthy v = true) (hget : cacheGet c k = v) :
    keysNodup (runCalls ([] : CacheMap) calls) ∧
    cacheGet (runCalls c calls) k = v :=
  ⟨keysNodup_runCalls calls (by simp [keysNodup]),
   runCalls_preserves_truthy hv hget calls⟩

/-- Witness for C7 (amended): after the two-call sequence
`[("a", ok (obj 1)), ("a", error "x")]` the keys are unique, and a cache
already holding the truthy `num 3` under `"k"` still holds it. -/
theorem cache_invariant_witness :
    keysNodup (runCalls ([] : CacheMap)
      [("a", (Except.ok (JsValue.obj 1) : Except JsValue JsValue)),
       ("a", Except.error (JsValue.str "x"))]) ∧
    cacheGet (runCalls [("k", JsValue.num 3)]
      [("a", (Except.ok (JsValue.obj 1) : Except JsValue JsValue)),
       ("a", Except.error (JsValue.str "x"))]) "k" = JsValue.num 3 :=
  cache_invariant
    [("a", (Except.ok (JsValue.obj 1) : Except JsValue JsValue)),
     ("a", Except.error (JsValue.str "x"))]
    [("k", JsValue.num 3)] "k" (JsValue.num 3) (by rfl) (by rfl)

/-! Claims about the HTTP call wrapper -/

/-- Options bag of `fetcho(url)` called with the default empty options bag. -/
def noOptions : RequestOptions := ⟨none, none, none⟩

/-- The sink receives exactly the error of a failed outcome and nothing on
success (by construction of `fetcho`). -/
theorem fetcho_logged_eq (transport : String → FinalOptions → TransportResult)
    (url : String) (options : RequestOptions) :
    (fetcho transport url options).logged =
      (match (fetcho transport url options).outcome with
       | Except.ok _ => []
       | Except.error e => [e]) := rfl

/-- C4: `fetcho` merges caller options shallowly over the defaults:
`fetcho(url)` with no options issues a GET request with headers
`{ Content-Type: application/json }`, and whenever the options bag supplies
a headers object, the request's headers are exactly that object (the
default Content-Type header is dropped; no per-header merging). -/
theorem fetcho_shallow_merge (transport : String → FinalOptions → TransportResult)
    (url : String) :
    (fetcho transport url noOptions).requested =
      ⟨"GET", [("Content-Type", "application/json")], none⟩ ∧
    ∀ (options : RequestOptions) (h : Headers), options.headers = some h →
      (fetcho transport url options).requested.headers = h := by
  constructor
  · rfl
  · intro options h hh
    simp [fetcho, mergeOptions, hh]

/-- Witness for C4: with no options the request is a GET carrying only the
default Content-Type header; with `{ method: POST, headers: { Authorization: x } }`
the headers are exactly `{ Authorization: x }`. -/
theorem fetcho_shallow_merge_witness :
    (fetcho (fun _ _ => TransportResult.fail ⟨"net"⟩) "https://api.example.com/data"
        noOptions).requested =
      ⟨"GET", [("Content-Type", "application/json")], none⟩ ∧
    (fetcho (fun _ _ => TransportResult.fail ⟨"net"⟩) "https://api.example.com/data"
        ⟨some "POST", some [("Authorization", "x")], none⟩).requested.headers =
      [("Authorization", "x")] :=
  ⟨(fetcho_shallow_merge (fun _ _ => TransportResult.fail ⟨"net"⟩)
      "https://api.example.com/data").1,
   (fetcho_shallow_merge (fun _ _ => TransportResult.fail ⟨"net"⟩)
      "https://api.example.com/data").2
     ⟨some "POST", some [("Authorization", "x")], none⟩ [("Authorization", "x")] rfl⟩

/-- C5: whenever the response's success flag is false, `fetcho` rejects
with an error whose message is exactly `"HTTP error! Status: <code>"` for
the numeric status, and does not attempt to parse the body. -/
theorem fetcho_http_status_failure (transport : String → FinalOptions → TransportResult)
    (url : String) (options : RequestOptions) (r : HttpResponse)
    (hresp : transport url (mergeOptions options) = TransportResult.success r)
    (hnotok : r.ok = false) :
    (fetcho transport url options).outcome =
      Except.error ⟨"HTTP error! Status: " ++ toString r.status⟩ ∧
    (fetcho transport url options).jsonCalled = false := by
  unfold fetcho
  simp [hresp, hnotok, statusMessage]

/-- Witness for C5: a 404 response makes `fetcho` reject with message
`"HTTP error! Status: 404"` and leave the body unparsed. -/
theorem fetcho_http_status_failure_witness :
    (fetcho (fun _ _ => TransportResult.success ⟨false, 404, Except.ok JsValue.null⟩)
        "u" noOptions).outcome = Except.error ⟨"HTTP error! Status: 404"⟩ ∧
    (fetcho (fun _ _ => TransportResult.success ⟨false, 404, Except.ok JsValue.null⟩)
        "u" noOptions).jsonCalled = false := by
  have h := fetcho_http_status_failure
    (fun _ _ => TransportResult.success ⟨false, 404, Except.ok JsValue.null⟩) "u" noOptions
    ⟨false, 404, Except.ok JsValue.null⟩ rfl rfl
  simpa using h

/-- C9: every failure arising inside `fetcho` — transport error, non-ok
status, or JSON parse failure — is passed to the diagnostic sink and then
re-raised unchanged to the caller; no failure path resolves successfully or
is swallowed, and the success path never invokes the sink. -/
theorem fetcho_reports_and_reraises (transport : String → FinalOptions → TransportResult)
    (url : String) (options : RequestOptions) :
    (∀ e, transport url (mergeOptions options) = TransportResult.fail e →
      (fetcho transport url options).outcome = Except.error e ∧
      (fetcho transport url options).logged = [e]) ∧
    (∀ r e, transport url (mergeOptions options) = TransportResult.success r →
      r.ok = true → r.json = Except.error e →
      (fetcho transport url options).outcome = Except.error e ∧
      (fetcho transport url options).logged = [e]) ∧
    (∀ r, transport url (mergeOptions options) = TransportResult.success r →
      r.ok = false →
      (fetcho transport url options).outcome = Except.error ⟨statusMessage r.status⟩ ∧
      (fetcho transport url options).logged = [⟨statusMessage r.status⟩]) ∧
    (∀ e, (fetcho transport url options).outcome = Except.error e →
      (fetcho transport url options).logged = [e]) ∧
    (∀ v, (fetcho transport url options).outcome = Except.ok v →
      (fetcho transport url options).logged = []) := by
  refine ⟨?_, ?_, ?_, ?_, ?_⟩
  · intro e he
    unfold fetcho
    simp [he]
  · intro r e hr hok hj
    unfold fetcho
    simp [hr, hok, hj]
  · intro r hr hok
    unfold fetcho
    simp [hr, hok]
  · intro e he
    rw [fetcho_logged_eq, he]
  · intro v hv
    rw [fetcho_logged_eq, hv]

/-- Witness for C9, on the transport-failure path: the error reaches the
sink once and is re-raised unchanged. -/
theorem fetcho_reports_and_reraises_witness :
    (fetcho (fun _ _ => TransportResult.fail ⟨"ECONNREFUSED"⟩) "u" noOptions).outcome =
      Except.error ⟨"ECONNREFUSED"⟩ ∧
    (fetcho (fun _ _ => TransportResult.fail ⟨"ECONNREFUSED"⟩) "u" noOptions).logged =
      [⟨"ECONNREFUSED"⟩] :=
  (fetcho_reports_and_reraises (fun _ _ => TransportResult.fail ⟨"ECONNREFUSED"⟩)
    "u" noOptions).1 ⟨"ECONNREFUSED"⟩ rfl

/-! Claims about the stateful fetch hook -/

/-- Counterexample to C8 as stated: from the reachable state left by a
failed fetch, a later successful fetch ends with `data` set and `loading`
false but `error` STILL SET — the effect body never calls `setError` on the
success path — so the success post-state does not have `error` unset. -/
theorem useFetch_stale_error_after_success :
    HookReachable (effectStep (initialHookState : HookState Nat) (Except.error ⟨"boom"⟩)) ∧
    (effectStep (effectStep (initialHookState : HookState Nat) (Except.error ⟨"boom"⟩))
        (Except.ok 1)).error = some "boom" ∧
    (effectStep (effectStep (initialHookState : HookState Nat) (Except.error ⟨"boom"⟩))
        (Except.ok 1)).data = some 1 ∧
    (effectStep (effectStep (initialHookState : HookState Nat) (Except.error ⟨"boom"⟩))
        (Except.ok 1)).error ≠ none :=
  ⟨HookReachable.step HookReachable.init, rfl, rfl, by decide⟩

/-- C8 (amended): modelling the hook's effect body as a step over
`(data, error, loading)`: from any reachable state, a triggered fetch that
resolves with `v` ends in `data = v`, `loading = false` with `error`
UNCHANGED (so `error` is unset only if no earlier trigger failed), and one
that fails ends in `error` set to the failure's message, `loading = false`
with `data` unchanged; in particular, from the initial state
`(data unset, error unset, loading true)`, a producer resolving `v` leads
to `(data = v, error unset, loading false)`, and after any triggered fetch
`loading` is false — it never re-enters `true` without a new trigger. -/
theorem useFetch_step_behaviour {V : Type} (s : HookState V) (_hs : HookReachable s) :
    (∀ v, effectStep s (Except.ok v) = ⟨some v, s.error, false⟩) ∧
    (∀ e, effectStep s (Except.error e) = ⟨s.data, some e.message, false⟩) ∧
    (∀ v : V, effectStep (initialHookState : HookState V) (Except.ok v) =
      ⟨some v, none, false⟩) ∧
    (∀ o, (effectStep s o).loading = false) := by
  refine ⟨fun v => rfl, fun e => rfl, fun v => rfl, fun o => ?_⟩
  cases o <;> rfl

/-- Witness for C8 (amended) at the initial state: a successful fetch of
`1` yields `(data = 1, error unset, loading false)`; a failing fetch yields
`(data unset, error = "x", loading false)`. -/
theorem useFetch_step_behaviour_witness :
    effectStep (initialHookState : HookState Nat) (Except.ok 1) = ⟨some 1, none, false⟩ ∧
    effectStep (initialHookState : HookState Nat) (Except.error ⟨"x"⟩) =
      ⟨none, some "x", false⟩ :=
  ⟨(useFetch_step_behaviour initialHookState HookReachable.init).1 1,
   (useFetch_step_behaviour initialHookState HookReachable.init).2.1 ⟨"x"⟩⟩
